import Mathlib

/-!
Verification of the powernode gateway workflow orchestrator and module router
(src/powernode/gateway/orchestrator.py, src/powernode/gateway/router.py),
as a shallow embedding: Python dicts become insertion-ordered association
lists, JSON-like data becomes the Value type, exceptions become Except, and
the HTTP transport and in-process handlers become explicit function
parameters.
-/

namespace PowernodeGateway

/-- JSON-like values: the data carried by workflow params and step results. -/
inductive Value : Type where
  | null : Value
  | boolean : Bool → Value
  | int : Int → Value
  | str : String → Value
  | arr : List Value → Value
  | obj : List (String × Value) → Value

/-- A Python dict with string keys, as an insertion-ordered association list
whose keys are kept unique by alset. -/
abbrev Obj := List (String × Value)

/-- The scheduler's results table: for each completed step name, the dict
that step returned. -/
abbrev Results := List (String × Obj)

/-- Python dict lookup d[k] / d.get(k). -/
def alget {α : Type} : List (String × α) → String → Option α
  | [], _ => none
  | (k, v) :: rest, key => if k = key then some v else alget rest key

/-- Python dict assignment d[k] = v: replaces in place keeping the key's
position, else appends (insertion order). -/
def alset {α : Type} : List (String × α) → String → α → List (String × α)
  | [], key, v => [(key, v)]
  | (k, w) :: rest, key, v =>
      if k = key then (key, v) :: rest else (k, w) :: alset rest key v

/-- Python d.update(other): assign each entry of other in order. -/
def alupdate {α : Type} (d other : List (String × α)) : List (String × α) :=
  other.foldl (fun acc p => alset acc p.1 p.2) d

/-- value.startswith("${") and value.endswith("}") check of _resolve_params;
returns the inner reference value[2:-1] when the string has that shape. -/
def stripTemplate (cs : List Char) : Option (List Char) :=
  match cs with
  | c1 :: c2 :: rest =>
      if c1 = '$' ∧ c2 = '{' then
        if rest.getLast? = some '}' then some rest.dropLast else none
      else none
  | _ => none

/-- ref.split(".", 1): the characters before the first dot and the characters
after it, or none when the reference has no dot. -/
def splitRef : List Char → Option (List Char × List Char)
  | [] => none
  | c :: rest =>
      if c = '.' then some ([], rest)
      else
        match splitRef rest with
        | none => none
        | some (pre, post) => some (c :: pre, post)

/-- The string branch of Orchestrator._resolve_params: a value of the exact
form given by a brace template is split at the first dot; if the step name is
a completed result, the value becomes results[step_name].get(result_key)
(None when the key is absent); otherwise the literal string is kept. -/
def resolveStr (results : Results) (s : String) : Value :=
  match stripTemplate s.data with
  | none => .str s
  | some ref =>
      match splitRef ref with
      | none => .str s
      | some (stepChars, keyChars) =>
          match alget results (String.mk stepChars) with
          | none => .str s
          | some stepRes =>
              match alget stepRes (String.mk keyChars) with
              | none => .null
              | some v => v

mutual
/-- One value of the params dict in Orchestrator._resolve_params: strings go
through the template branch, dicts are resolved recursively, and the list
branch only recurses into dict elements, keeping every other element as is. -/
def resolveVal (results : Results) : Value → Value
  | .str s => resolveStr results s
  | .obj kvs => .obj (resolveObj results kvs)
  | .arr xs => .arr (resolveArr results xs)
  | v => v

/-- Orchestrator._resolve_params over a dict: each entry's value resolved,
in order, into a fresh dict. -/
def resolveObj (results : Results) : List (String × Value) → List (String × Value)
  | [] => []
  | (k, v) :: rest => (k, resolveVal results v) :: resolveObj results rest

/-- The isinstance(value, list) branch: _resolve_params is applied to dict
elements only; any other element is kept untouched. -/
def resolveArr (results : Results) : List Value → List Value
  | [] => []
  | .obj kvs :: rest => .obj (resolveObj results kvs) :: resolveArr results rest
  | v :: rest => v :: resolveArr results rest
end

/-- previous_results merged into the params dict as dict values. -/
def resultsAsValues (results : Results) : Obj :=
  results.map (fun p => (p.1, Value.obj p.2))

/-- _execute_step parameter layering: params = dict(); params.update(context);
params.update(previous_results); params.update(step.params). -/
def mergeParams (context : Obj) (results : Results) (stepParams : Obj) : Obj :=
  alupdate (alupdate (alupdate [] context) (resultsAsValues results)) stepParams

/-- _execute_step: the merged params with template references resolved. -/
def resolveStepParams (context : Obj) (results : Results) (stepParams : Obj) : Obj :=
  resolveObj results (mergeParams context results stepParams)

/-- Template reference text with the braces written out: the literal body of
a reference string. -/
def braceRef (r : String) : String := "$\x7b" ++ r ++ "\x7d"

/-- The two-part reference form stepName.resultKey inside braces. -/
def templateRef (stepName keyName : String) : String :=
  braceRef (stepName ++ "." ++ keyName)

/-- The static fields of orchestrator.Step, fixed at workflow creation. The
execution-time fields (status, result, error, timestamps) are modelled by the
scheduler state below. -/
structure StepDef where
  name : String
  service : String
  endpoint : String
  method : String
  params : Obj
  depends_on : List String
  retry_count : Nat
  timeout : Option Nat

/-- A submitted step definition dict (or a persisted one): each optional key
is none when absent. step_def.get defaults are applied by mkStep. -/
structure StepInput where
  name : String
  service : String
  endpoint : String
  method : Option String
  params : Option Obj
  depends_on : Option (List String)
  retry_count : Option Nat
  timeout : Option Nat

/-- Step construction as in create_workflow and in the execute_workflow
rehydration path: step_def.get with defaults POST / empty dict / empty list /
0 / None, then Step.__init__ (where a missing params or depends_on also
falls back to the empty dict or list). -/
def mkStep (d : StepInput) : StepDef :=
  { name := d.name
    service := d.service
    endpoint := d.endpoint
    method := d.method.getD "POST"
    params := d.params.getD []
    depends_on := d.depends_on.getD []
    retry_count := d.retry_count.getD 0
    timeout := d.timeout }

/-- The dict persisted per step by create_workflow: every field written out
under its own key. -/
def serializeStep (s : StepDef) : StepInput :=
  { name := s.name
    service := s.service
    endpoint := s.endpoint
    method := some s.method
    params := some s.params
    depends_on := some s.depends_on
    retry_count := some s.retry_count
    timeout := s.timeout }

/-- create_workflow: the workflow_steps list built from the submitted defs. -/
def createSteps (defs : List StepInput) : List StepDef :=
  defs.map mkStep

/-- Workflow.__init__: self.steps is a dict comprehension keyed by step
name, so a later step with the same name silently replaces an earlier one. -/
def buildSteps (steps : List StepDef) : List (String × StepDef) :=
  steps.foldl (fun m s => alset m s.name s) []

/-- The last submitted step definition carrying a given name, the one the
dict comprehension keeps. -/
def lastWithName (steps : List StepDef) (n : String) : Option StepDef :=
  match steps with
  | [] => none
  | s :: rest =>
      match lastWithName rest n with
      | some t => some t
      | none => if s.name = n then some s else none

/-- orchestrator.WorkflowStatus. -/
inductive WorkflowStatus where
  | pending
  | running
  | completed
  | failed
  | cancelled
deriving DecidableEq

/-- COMPLETED, FAILED and CANCELLED are the terminal statuses. -/
def isTerminal : WorkflowStatus → Bool
  | .completed => true
  | .failed => true
  | .cancelled => true
  | _ => false

/-- Position of a status along the PENDING → RUNNING → terminal machine. -/
def statusRank : WorkflowStatus → Nat
  | .pending => 0
  | .running => 1
  | _ => 2

/-- How one call of execute_workflow ends: all steps completed, the ready
set ran dry (the dependency-resolution ValueError), or a step failed. Each
carries the results recorded for the steps completed up to that point. -/
inductive ExecOutcome where
  | completed (results : Results)
  | depFailed (results : Results)
  | stepFailed (stepName : String) (err : String) (results : Results)

/-- Outcome of walking one gathered batch in order. -/
inductive BatchResult where
  | failed (stepName : String) (err : String) (results : Results)
  | ok (executed : List String) (results : Results)

/-- executed_steps.add(name): a set, modelled as a duplicate-free list. -/
def addName (executed : List String) (n : String) : List String :=
  if n ∈ executed then executed else executed ++ [n]

/-- The for step, result in zip(ready_steps, step_results) loop: entries are
inspected in order; the first exception marks that step failed and aborts the
walk, while each success is recorded in results and executed_steps. -/
def processBatch :
    List (StepDef × Except String Obj) → List String → Results → BatchResult
  | [], executed, results => .ok executed results
  | (step, .error e) :: _, _, results => .failed step.name e results
  | (step, .ok r) :: rest, executed, results =>
      processBatch rest (addName executed step.name) (alset results step.name r)

/-- The ready-set filter: not yet executed and every depends_on entry
already executed. -/
def isReady (executed : List String) (s : StepDef) : Bool :=
  !(decide (s.name ∈ executed)) && s.depends_on.all (fun d => decide (d ∈ executed))

/-- The ready_steps list comprehension over workflow.steps.values(). -/
def readySteps (steps : List (String × StepDef)) (executed : List String) : List StepDef :=
  (steps.map Prod.snd).filter (isReady executed)

/-- The while len(executed_steps) < len(workflow.steps) scheduler loop of
execute_workflow. run stands for the awaited _execute_step of one step given
the current results table (the initial context is folded into run by the
caller). -/
def schedLoop (run : StepDef → Results → Except String Obj)
    (steps : List (String × StepDef)) (executed : List String) (results : Results) :
    ExecOutcome :=
  if h : executed.length < steps.length then
    match hr : readySteps steps executed with
    | [] => .depFailed results
    | s :: rest =>
        match hb : processBatch ((s :: rest).map (fun t => (t, run t results))) executed results with
        | .failed n e rs => .stepFailed n e rs
        | .ok executed2 results2 => schedLoop run steps executed2 results2
  else .completed results
termination_by steps.length - executed.length
decreasing_by
  have mono : ∀ (l : List (StepDef × Except String Obj)) (ex : List String)
      (rs : Results) (ex2 : List String) (rs2 : Results),
      processBatch l ex rs = .ok ex2 rs2 → ex.length ≤ ex2.length := by
    intro l
    induction l with
    | nil =>
        intro ex rs ex2 rs2 hpb
        simp only [processBatch, BatchResult.ok.injEq] at hpb
        rw [hpb.1]
    | cons p rest ih =>
        intro ex rs ex2 rs2 hpb
        obtain ⟨step, res⟩ := p
        cases res with
        | error e =>
            simp only [processBatch] at hpb
            exact absurd hpb (by simp)
        | ok r =>
            simp only [processBatch] at hpb
            have h2 := ih _ _ _ _ hpb
            have h3 : ex.length ≤ (addName ex step.name).length := by
              unfold addName
              split
              · exact Nat.le_refl _
              · simp
            omega
  have hs : s ∈ readySteps steps executed := by
    rw [hr]
    exact List.mem_cons_self s rest
  have hname : s.name ∉ executed := by
    have hmem := List.mem_filter.mp hs
    have hp := hmem.2
    simp only [isReady, Bool.and_eq_true, Bool.not_eq_eq_eq_not, decide_eq_true_eq] at hp
    simpa using hp.1
  rw [List.map_cons] at hb
  cases hrun : run s results with
  | error e =>
      rw [hrun] at hb
      simp only [processBatch] at hb
      exact absurd hb (by simp)
  | ok r =>
      rw [hrun] at hb
      simp only [processBatch] at hb
      have h2 := mono _ _ _ _ _ hb
      have h3 : (addName executed s.name).length = executed.length + 1 := by
        unfold addName
        rw [if_neg hname]
        simp
      omega

/-- The workflow fields execute_workflow mutates (timestamps aside). -/
structure WFState where
  status : WorkflowStatus
  result : Option Results
  error : Option String

/-- A freshly created Workflow: PENDING, no result, no error. -/
def initialWFState : WFState :=
  { status := .pending, result := none, error := none }

/-- The message of the ValueError raised when the ready set runs dry. -/
def depErrorMsg : String := "Cannot resolve step dependencies"

/-- The writes execute_workflow performs on the workflow object after the
loop: on success status COMPLETED and result assigned; on any exception the
except branch sets status FAILED and error str(e), leaving result as it was. -/
def applyOutcome (st : WFState) (out : ExecOutcome) : WFState :=
  match out with
  | .completed rs => { st with status := .completed, result := some rs }
  | .depFailed _ => { st with status := .failed, error := some depErrorMsg }
  | .stepFailed _ e _ => { st with status := .failed, error := some e }

/-- One call of execute_workflow on an in-memory workflow: status is set to
RUNNING unconditionally at entry, the scheduler loop runs from empty
executed and results sets, and the outcome is applied. -/
def executeWorkflowState (run : StepDef → Results → Except String Obj)
    (steps : List (String × StepDef)) (st : WFState) : WFState :=
  applyOutcome { st with status := .running } (schedLoop run steps [] [])

/-- The values assigned to workflow.status, in order, during one call of
execute_workflow: RUNNING at entry, then on a step failure FAILED inside the
batch walk and FAILED again in the except branch, else one terminal write. -/
def execStatusTrace (out : ExecOutcome) : List WorkflowStatus :=
  .running :: (match out with
    | .completed _ => [.completed]
    | .depFailed _ => [.failed]
    | .stepFailed _ _ _ => [.failed, .failed])

/-- The retry loop of _execute_step, one dispatch attempt per iteration.
dispatch maps the 0-based attempt number to its outcome; remaining counts
the retries still allowed (initially step.retry_count). Returns the sleep
durations performed (asyncio.sleep(1 * retries) before each retry), the
total number of attempts made, and the final outcome: the response of the
first success, or the last error re-raised once the bound is exhausted. -/
def retryLoop (dispatch : Nat → Except String Obj) :
    Nat → Nat → List Nat × Nat × Except String Obj
  | attempt, 0 =>
      match dispatch attempt with
      | .ok r => ([], attempt + 1, .ok r)
      | .error e => ([], attempt + 1, .error e)
  | attempt, remaining + 1 =>
      match dispatch attempt with
      | .ok r => ([], attempt + 1, .ok r)
      | .error _ =>
          match retryLoop dispatch (attempt + 1) remaining with
          | (sleeps, total, res) => ((attempt + 1) :: sleeps, total, res)

/-- The whole retry policy of one step: retries start at 0 and the loop runs
while retries <= retry_count. -/
def runRetries (dispatch : Nat → Except String Obj) (retryCount : Nat) :
    List Nat × Nat × Except String Obj :=
  retryLoop dispatch 0 retryCount

/-- _execute_step: layer context, previous results and the step's params,
resolve template references, then dispatch under the retry policy. dispatch
takes the step, its resolved params and the attempt number. -/
def executeStep (dispatch : StepDef → Obj → Nat → Except String Obj)
    (context : Obj) (step : StepDef) (results : Results) :
    List Nat × Nat × Except String Obj :=
  runRetries (dispatch step (resolveStepParams context results step.params)) step.retry_count

/-- The _execute_step outcome as the scheduler sees it. -/
def stepRunner (dispatch : StepDef → Obj → Nat → Except String Obj)
    (context : Obj) : StepDef → Results → Except String Obj :=
  fun step results => (executeStep dispatch context step results).2.2

/-- A FastAPI route as _route_internal consumes it: its path pattern and its
method set. The handler callable itself is abstracted by the callHandler
parameter of routeInternal. -/
structure APIRoute where
  path : String
  methods : List String
deriving DecidableEq

/-- router.ModuleRegistration: the internal router is modelled by its route
list; exactly the fields dispatch reads. -/
structure ModuleRegistration where
  module_name : String
  base_path : String
  routes : Option (List APIRoute)
  service_url : Option String
  health_check_endpoint : Option String

/-- method.upper() — Python str.upper over the ASCII method names dispatch
compares against. -/
def upper (s : String) : String := String.mk (s.data.map Char.toUpper)

/-- Python str.rstrip with a single character. -/
def dropTrailing (c : Char) (cs : List Char) : List Char :=
  (cs.reverse.dropWhile (fun x => x = c)).reverse

/-- Python str.lstrip with a single character. -/
def dropLeading (c : Char) (cs : List Char) : List Char :=
  cs.dropWhile (fun x => x = c)

/-- base.rstrip("/") + "/" + endpoint.lstrip("/"), the full-path and URL
construction shared by _route_internal and _route_external. -/
def joinUrl (base endpointPath : String) : String :=
  String.mk (dropTrailing '/' base.data ++ '/' :: dropLeading '/' endpointPath.data)

/-- The outgoing httpx request _route_external makes: params ride as query
for GET and DELETE and as the json body for POST and PUT. -/
structure HttpRequest where
  url : String
  method : String
  query : Option Obj
  jsonBody : Option Obj
  timeout : Option Nat

/-- An upstream HTTP response: status code and json body. -/
structure HttpResponse where
  status : Nat
  body : Obj

/-- The error taxonomy of dispatch, one constructor per distinct raise site
of route_request and its helpers. -/
inductive RouteError where
  | serviceNotFound (service : String)
  | notConfigured (service : String)
  | unsupportedMethod (m : String)
  | httpStatus (status : Nat) (body : Obj)
  | transport (e : String)
  | noRoute (path m : String)
  | handlerFailed (e : String)

/-- The method branch ladder of _route_external: GET, POST, PUT, DELETE in
source order, none for the unsupported-method ValueError. -/
def buildExternalRequest (serviceUrl endpointPath m : String) (params : Obj)
    (timeout : Option Nat) : Option HttpRequest :=
  let url := joinUrl serviceUrl endpointPath
  if upper m = "GET" then
    some { url := url, method := "GET", query := some params, jsonBody := none, timeout := timeout }
  else if upper m = "POST" then
    some { url := url, method := "POST", query := none, jsonBody := some params, timeout := timeout }
  else if upper m = "PUT" then
    some { url := url, method := "PUT", query := none, jsonBody := some params, timeout := timeout }
  else if upper m = "DELETE" then
    some { url := url, method := "DELETE", query := some params, jsonBody := none, timeout := timeout }
  else none

/-- httpx.Response.is_success: the 2xx range. -/
def is2xx (status : Nat) : Bool :=
  decide (200 ≤ status) && decide (status < 300)

/-- response.raise_for_status() followed by response.json(): a non-2xx
status raises instead of returning the body. -/
def handleExternalResponse (resp : HttpResponse) : Except RouteError Obj :=
  if is2xx resp.status then .ok resp.body else .error (.httpStatus resp.status resp.body)

/-- _route_external with the transport abstracted: build the request, send
it, fail on transport errors, raise for non-2xx, else return the body. -/
def routeExternal (http : HttpRequest → Except String HttpResponse)
    (serviceUrl endpointPath m : String) (params : Obj) (timeout : Option Nat) :
    Except RouteError Obj :=
  match buildExternalRequest serviceUrl endpointPath m params timeout with
  | none => .error (.unsupportedMethod m)
  | some req =>
      match http req with
      | .error e => .error (.transport e)
      | .ok resp => handleExternalResponse resp

/-- route_path.replace yielding both braces removed. -/
def stripBraces (cs : List Char) : List Char :=
  cs.filter (fun c => !(c = '{' || c = '}'))

/-- _route_matches: the method must be in route.methods, then the request
path is compared by startswith against the brace-stripped, slash-rstripped
route path. -/
def routeMatches (route : APIRoute) (path m : String) : Bool :=
  route.methods.contains (upper m) &&
    List.isPrefixOf (dropTrailing '/' (stripBraces route.path.data)) path.data

/-- _extract_path_params: a placeholder in the source, always empty. -/
def extractPathParams (routePath requestPath : String) : Obj :=
  []

/-- The for route in module.router.routes scan: the first matching route. -/
def findRoute (routes : List APIRoute) (path m : String) : Option APIRoute :=
  match routes with
  | [] => none
  | r :: rest => if routeMatches r path m then some r else findRoute rest path m

/-- _route_internal: build the full path, scan for the first matching route,
merge the (empty) extracted path params into the request params and call the
handler; no match raises the no-route ValueError. callHandler abstracts the
route.endpoint coroutine together with the result-to-dict conversion. -/
def routeInternal (callHandler : APIRoute → Obj → Except String Obj)
    (basePath endpointPath m : String) (params : Obj) (routes : List APIRoute) :
    Except RouteError Obj :=
  match findRoute routes (joinUrl basePath endpointPath) m with
  | none => .error (.noRoute (joinUrl basePath endpointPath) m)
  | some r =>
      match callHandler r (alupdate params (extractPathParams r.path (joinUrl basePath endpointPath))) with
      | .ok res => .ok res
      | .error e => .error (.handlerFailed e)

/-- ModuleRouter.register_module: self.modules[module_name] = registration. -/
def registerModule (modules : List (String × ModuleRegistration))
    (reg : ModuleRegistration) : List (String × ModuleRegistration) :=
  alset modules reg.module_name reg

/-- ModuleRouter.route_request: resolve the module by name (ServiceNotFound
when absent), dispatch internally when a router is attached, externally when
a service_url is configured, else the not-configured ValueError. -/
def routeRequest (http : HttpRequest → Except String HttpResponse)
    (callHandler : APIRoute → Obj → Except String Obj)
    (modules : List (String × ModuleRegistration))
    (service endpointPath m : String) (params : Obj) (timeout : Option Nat) :
    Except RouteError Obj :=
  match alget modules service with
  | none => .error (.serviceNotFound service)
  | some md =>
      match md.routes with
      | some routes => routeInternal callHandler md.base_path endpointPath m params routes
      | none =>
          match md.service_url with
          | some u => routeExternal http u endpointPath m params timeout
          | none => .error (.notConfigured service)

/-- Two steps depending on each other: the cyclic workflow shape. -/
def cycleA : StepDef :=
  { name := "a", service := "svc", endpoint := "/a", method := "POST",
    params := [], depends_on := ["b"], retry_count := 0, timeout := none }

/-- The other half of the two-step cycle. -/
def cycleB : StepDef :=
  { name := "b", service := "svc", endpoint := "/b", method := "POST",
    params := [], depends_on := ["a"], retry_count := 0, timeout := none }

/-- A step depending on a name no step carries. -/
def danglingStep : StepDef :=
  { name := "c", service := "svc", endpoint := "/c", method := "POST",
    params := [], depends_on := ["missing"], retry_count := 0, timeout := none }

/-- A runner whose result can never be observed when no step is dispatched. -/
def runNever : StepDef → Results → Except String Obj := fun _ _ => .error "unreachable"

/-- A dependency-free first step. -/
def stepA : StepDef :=
  { name := "a", service := "svc", endpoint := "/a", method := "POST",
    params := [], depends_on := [], retry_count := 0, timeout := none }

/-- A second step depending on the first. -/
def stepB : StepDef :=
  { name := "b", service := "svc", endpoint := "/b", method := "POST",
    params := [], depends_on := ["a"], retry_count := 0, timeout := none }

/-- A runner under which step a returns a value and every other step fails. -/
def runAB : StepDef → Results → Except String Obj :=
  fun s _ => if s.name = "a" then .ok [("v", .int 1)] else .error "boom"

/-- A dispatch that fails on every attempt. -/
def dispatchFail : Nat → Except String Obj := fun _ => .error "boom"

/-- A dependency-free step allowed two retries. -/
def stepR : StepDef :=
  { name := "r", service := "svc", endpoint := "/r", method := "POST",
    params := [], depends_on := [], retry_count := 2, timeout := none }

/-- A completed-results table with one step a having returned one key v. -/
def resultsA : Results := [("a", [("v", Value.int 42)])]

/-- A single step with no dependencies, no params, no retries. -/
def trivialStep : StepDef :=
  { name := "t", service := "svc", endpoint := "/t", method := "POST",
    params := [], depends_on := [], retry_count := 0, timeout := none }

/-- A runner under which every step returns an empty dict. -/
def runOk : StepDef → Results → Except String Obj := fun _ _ => .ok []

/-- The workflow.status values written across two consecutive calls of
execute_workflow on the same workflow object, starting from PENDING. -/
def twoCallTrace : List WorkflowStatus :=
  .pending :: (execStatusTrace (schedLoop runOk (buildSteps [trivialStep]) [] []) ++
    execStatusTrace (schedLoop runOk (buildSteps [trivialStep]) [] []))

/-- An external module registration with a base URL and no attached router. -/
def extMod : ModuleRegistration :=
  { module_name := "ext", base_path := "/api", routes := none,
    service_url := some "http://up", health_check_endpoint := none }

/-- A module table holding only the external module. -/
def mods1 : List (String × ModuleRegistration) := registerModule [] extMod

/-- A transport whose upstream always answers 404 with an empty body. -/
def http404 : HttpRequest → Except String HttpResponse :=
  fun _ => .ok { status := 404, body := [] }

/-- A handler stub for dispatch paths that never reach a handler. -/
def handlerStub : APIRoute → Obj → Except String Obj := fun _ _ => .error "unused"

/-- A literal collection route. -/
def routeItems : APIRoute := { path := "/api/items", methods := ["GET"] }

/-- A longer literal route shadowed by the prefix scan. -/
def routeItemsAll : APIRoute := { path := "/api/items/all", methods := ["GET"] }

/-- A parameterized route. -/
def routeItemsParam : APIRoute := { path := "/api/items/\x7bitem_id\x7d", methods := ["GET"] }

theorem schedLoop_unfold (run : StepDef → Results → Except String Obj)
    (steps : List (String × StepDef)) (executed : List String) (results : Results) :
    schedLoop run steps executed results =
      if executed.length < steps.length then
        match readySteps steps executed with
        | [] => .depFailed results
        | s :: rest =>
            match processBatch (List.map (fun t => (t, run t results)) (s :: rest)) executed results with
            | .failed n e rs => .stepFailed n e rs
            | .ok executed2 results2 => schedLoop run steps executed2 results2
      else .completed results := by
  rw [schedLoop.eq_def]
  split
  · split
    · rename_i hr
      rw [hr]
    · rename_i s rest hr
      rw [hr]
      split
      · rename_i n e rs hb
        simp only [hb]
      · rename_i ex2 rs2 hb
        simp only [hb]
  · rfl

theorem alget_alset_self {α : Type} (d : List (String × α)) (k : String) (v : α) :
    alget (alset d k v) k = some v := by
  induction d with
  | nil => simp [alset, alget]
  | cons p rest ih =>
      obtain ⟨k1, v1⟩ := p
      by_cases h : k1 = k
      · subst h
        simp [alset, alget]
      · simp [alset, alget, h, ih]

theorem alget_alset_ne {α : Type} (d : List (String × α)) (k k' : String) (v : α)
    (h : k ≠ k') : alget (alset d k v) k' = alget d k' := by
  induction d with
  | nil => simp [alset, alget, h]
  | cons p rest ih =>
      obtain ⟨k1, v1⟩ := p
      by_cases h1 : k1 = k
      · subst h1
        simp [alset, alget, h]
      · simp only [alset, if_neg h1, alget]
        by_cases h2 : k1 = k'
        · simp [h2]
        · simp [h2, ih]

theorem alget_eq_none_of_not_mem {α : Type} (d : List (String × α)) (k : String)
    (h : k ∉ d.map Prod.fst) : alget d k = none := by
  induction d with
  | nil => simp [alget]
  | cons p rest ih =>
      obtain ⟨k1, v1⟩ := p
      simp only [List.map_cons, List.mem_cons] at h
      push_neg at h
      simp only [alget, if_neg (Ne.symm h.1), ih h.2]

theorem mem_keys_of_alget_isSome {α : Type} (d : List (String × α)) (k : String)
    (h : (alget d k).isSome = true) : k ∈ d.map Prod.fst := by
  by_contra hk
  rw [alget_eq_none_of_not_mem d k hk] at h
  simp at h

theorem alget_alupdate {α : Type} (d other : List (String × α)) (k : String)
    (h : (other.map Prod.fst).Nodup) :
    alget (alupdate d other) k =
      match alget other k with
      | some v => some v
      | none => alget d k := by
  induction other generalizing d with
  | nil => simp [alupdate, alget]
  | cons p rest ih =>
      obtain ⟨k1, v1⟩ := p
      simp only [List.map_cons, List.nodup_cons] at h
      have hup : alupdate d ((k1, v1) :: rest) = alupdate (alset d k1 v1) rest := rfl
      rw [hup, ih _ h.2]
      by_cases hk : k1 = k
      · subst hk
        have hrest : alget rest k1 = none :=
          alget_eq_none_of_not_mem rest k1 h.1
        simp [hrest, alget, alget_alset_self]
      · simp only [alget, if_neg hk]
        cases hr : alget rest k with
        | some v => simp
        | none => simp [alget_alset_ne d k1 k v1 hk]

theorem braceRef_data (r : String) :
    (braceRef r).data = '$' :: '{' :: (r.data ++ ['}']) := by
  have h1 : ("$\x7b" : String).data = ['$', '{'] := rfl
  have h2 : ("\x7d" : String).data = ['}'] := rfl
  simp [braceRef, String.data_append, h1, h2]

theorem stripTemplate_braceRef (r : String) :
    stripTemplate (braceRef r).data = some r.data := by
  rw [braceRef_data]
  simp [stripTemplate, List.getLast?_concat, List.dropLast_concat]

theorem splitRef_append_dot (pre post : List Char) (h : '.' ∉ pre) :
    splitRef (pre ++ '.' :: post) = some (pre, post) := by
  induction pre with
  | nil => simp [splitRef]
  | cons c cs ih =>
      simp only [List.mem_cons] at h
      push_neg at h
      rw [List.cons_append]
      simp only [splitRef, if_neg (Ne.symm h.1), ih h.2]

theorem splitRef_no_dot (cs : List Char) (h : '.' ∉ cs) : splitRef cs = none := by
  induction cs with
  | nil => simp [splitRef]
  | cons c rest ih =>
      simp only [List.mem_cons] at h
      push_neg at h
      simp only [splitRef, if_neg (Ne.symm h.1), ih h.2]

theorem templateRef_strip (n k : String) :
    stripTemplate (templateRef n k).data = some (n.data ++ '.' :: k.data) := by
  rw [templateRef, stripTemplate_braceRef]
  congr 1
  simp [String.data_append]

/-- The template branch of _resolve_params in full: with a dot-free step
name, the reference is split into that step name and the remaining key; a
completed step name yields results[step_name].get(result_key), an unknown
one keeps the literal. -/
theorem resolveStr_ref (results : Results) (n k : String) (hn : '.' ∉ n.data) :
    resolveStr results (templateRef n k) =
      match alget results n with
      | none => .str (templateRef n k)
      | some stepRes =>
          match alget stepRes k with
          | none => .null
          | some v => v := by
  simp only [resolveStr, templateRef_strip n k, splitRef_append_dot n.data k.data hn]

/-- A dot-free brace reference is kept literal. -/
theorem resolveStr_no_dot (results : Results) (r : String) (h : '.' ∉ r.data) :
    resolveStr results (braceRef r) = .str (braceRef r) := by
  simp only [resolveStr, stripTemplate_braceRef, splitRef_no_dot r.data h]

theorem mem_addName_self (ex : List String) (n : String) : n ∈ addName ex n := by
  unfold addName
  split
  · assumption
  · simp

theorem mem_addName_of_mem (ex : List String) (n k : String) (h : k ∈ ex) :
    k ∈ addName ex n := by
  unfold addName
  split
  · exact h
  · simp [h]

theorem processBatch_failed_extends
    (l : List (StepDef × Except String Obj)) (ex : List String) (rs : Results)
    (n e : String) (rsF : Results)
    (h : processBatch l ex rs = .failed n e rsF) :
    ∀ k v, alget rs k = some v → k ∉ l.map (fun p => p.1.name) → alget rsF k = some v := by
  induction l generalizing ex rs with
  | nil => simp [processBatch] at h
  | cons p rest ih =>
      obtain ⟨step, res⟩ := p
      cases res with
      | error e2 =>
          simp only [processBatch] at h
          cases h
          intro k v hk _
          exact hk
      | ok r =>
          simp only [processBatch] at h
          intro k v hk hnot
          simp only [List.map_cons, List.mem_cons] at hnot
          push_neg at hnot
          have hk2 : alget (alset rs step.name r) k = some v := by
            rw [alget_alset_ne rs step.name k r (Ne.symm hnot.1)]
            exact hk
          exact ih _ _ h k v hk2 hnot.2

theorem processBatch_ok_extends
    (l : List (StepDef × Except String Obj)) (ex : List String) (rs : Results)
    (ex2 : List String) (rs2 : Results)
    (h : processBatch l ex rs = .ok ex2 rs2) :
    ∀ k v, alget rs k = some v → k ∉ l.map (fun p => p.1.name) → alget rs2 k = some v := by
  induction l generalizing ex rs with
  | nil =>
      simp only [processBatch, BatchResult.ok.injEq] at h
      intro k v hk _
      rw [← h.2]
      exact hk
  | cons p rest ih =>
      obtain ⟨step, res⟩ := p
      cases res with
      | error e2 =>
          simp only [processBatch] at h
          exact absurd h (by simp)
      | ok r =>
          simp only [processBatch] at h
          intro k v hk hnot
          simp only [List.map_cons, List.mem_cons] at hnot
          push_neg at hnot
          have hk2 : alget (alset rs step.name r) k = some v := by
            rw [alget_alset_ne rs step.name k r (Ne.symm hnot.1)]
            exact hk
          exact ih _ _ h k v hk2 hnot.2

theorem processBatch_ok_invariant
    (l : List (StepDef × Except String Obj)) (ex : List String) (rs : Results)
    (ex2 : List String) (rs2 : Results)
    (h : processBatch l ex rs = .ok ex2 rs2)
    (hinv : ∀ k, (alget rs k).isSome = true → k ∈ ex) :
    ∀ k, (alget rs2 k).isSome = true → k ∈ ex2 := by
  induction l generalizing ex rs with
  | nil =>
      simp only [processBatch, BatchResult.ok.injEq] at h
      intro k hk
      rw [← h.2] at hk
      rw [← h.1]
      exact hinv k hk
  | cons p rest ih =>
      obtain ⟨step, res⟩ := p
      cases res with
      | error e2 =>
          simp only [processBatch] at h
          exact absurd h (by simp)
      | ok r =>
          simp only [processBatch] at h
          apply ih _ _ h
          intro k hk
          by_cases hks : k = step.name
          · subst hks
            exact mem_addName_self ex step.name
          · rw [alget_alset_ne rs step.name k r (fun hh => hks hh.symm)] at hk
            exact mem_addName_of_mem ex step.name k (hinv k hk)

theorem readySteps_name_not_executed (steps : List (String × StepDef))
    (executed : List String) :
    ∀ s ∈ readySteps steps executed, s.name ∉ executed := by
  intro s hs
  have hmem := List.mem_filter.mp hs
  have hp := hmem.2
  simp only [isReady, Bool.and_eq_true, Bool.not_eq_eq_eq_not, decide_eq_true_eq] at hp
  simpa using hp.1

/-- Claim C1: on every loop iteration the ready set is exactly the steps not
yet completed whose every depends_on entry is completed; an empty ready set
while incomplete steps remain ends the execution as depFailed, which the
outer handler turns into status FAILED carrying the dependency-resolution
error message; and a workflow of two mutually dependent steps always ends
exactly that way, with the empty results table as witness that no step was
ever dispatched. -/
theorem C1_theorem :
    (∀ (executed : List String) (s : StepDef),
        isReady executed s = true ↔
          (s.name ∉ executed ∧ ∀ d ∈ s.depends_on, d ∈ executed)) ∧
    (∀ (run : StepDef → Results → Except String Obj) (steps : List (String × StepDef))
        (executed : List String) (results : Results),
        executed.length < steps.length →
        readySteps steps executed = [] →
        schedLoop run steps executed results = .depFailed results) ∧
    (∀ (st : WFState) (results : Results),
        (applyOutcome st (.depFailed results)).status = .failed ∧
        (applyOutcome st (.depFailed results)).error = some depErrorMsg ∧
        (applyOutcome st (.depFailed results)).result = st.result) ∧
    (∀ (run : StepDef → Results → Except String Obj) (a b : StepDef),
        a.name ≠ b.name → a.depends_on = [b.name] → b.depends_on = [a.name] →
        schedLoop run (buildSteps [a, b]) [] [] = .depFailed []) := by
  refine ⟨?_, ?_, ?_, ?_⟩
  · intro executed s
    simp [isReady, List.all_eq_true]
  · intro run steps executed results h1 h2
    rw [schedLoop_unfold, if_pos h1, h2]
  · intro st results
    exact ⟨rfl, rfl, rfl⟩
  · intro run a b hab ha hb
    have hsteps : buildSteps [a, b] = [(a.name, a), (b.name, b)] := by
      simp [buildSteps, alset, hab]
    have hready : readySteps (buildSteps [a, b]) [] = [] := by
      rw [hsteps]
      simp [readySteps, isReady, ha, hb]
    rw [schedLoop_unfold, if_pos (by rw [hsteps]; simp), hready]

/-- Claim C1 witness: the two-step cycle fails dependency resolution with no
step run, a dangling dependency does the same, and the failure is surfaced
as a FAILED workflow with the dependency error message. -/
theorem C1_witness :
    schedLoop runNever (buildSteps [cycleA, cycleB]) [] [] = .depFailed [] ∧
    schedLoop runNever (buildSteps [danglingStep]) [] [] = .depFailed [] ∧
    (applyOutcome initialWFState (.depFailed [])).status = .failed ∧
    (applyOutcome initialWFState (.depFailed [])).error = some depErrorMsg ∧
    (isReady ["a"] cycleB = true ↔ (cycleB.name ∉ ["a"] ∧ ∀ d ∈ cycleB.depends_on, d ∈ ["a"])) := by
  refine ⟨?_, ?_, ?_, ?_, ?_⟩
  · exact C1_theorem.2.2.2 runNever cycleA cycleB (by decide) rfl rfl
  · exact C1_theorem.2.1 runNever (buildSteps [danglingStep]) [] [] (by decide) rfl
  · exact (C1_theorem.2.2.1 initialWFState []).1
  · exact (C1_theorem.2.2.1 initialWFState []).2.1
  · exact C1_theorem.1 ["a"] cycleB

/-- Claim C8 counterexample: calling execute_workflow twice on the same
workflow object yields the status writes PENDING, RUNNING, COMPLETED,
RUNNING, COMPLETED — the unconditional status = RUNNING at entry regresses
the workflow out of the terminal COMPLETED status, refuting monotonicity
under re-invocation. -/
theorem C8_counterexample :
    twoCallTrace = [.pending, .running, .completed, .running, .completed] ∧
    twoCallTrace[2]? = some .completed ∧
    twoCallTrace[3]? = some .running ∧
    isTerminal .completed = true ∧
    isTerminal .running = false := by
  have h : schedLoop runOk (buildSteps [trivialStep]) [] [] = .completed [("t", [])] := by
    simp [schedLoop_unfold, buildSteps, alset, readySteps, isReady, trivialStep,
      processBatch, addName, runOk]
  refine ⟨?_, ?_, ?_, rfl, rfl⟩ <;> simp [twoCallTrace, h, execStatusTrace]

/-- Claim C8 amended: within one call of execute_workflow the status writes
are monotone along PENDING → RUNNING → terminal and end in a terminal
status, and every call ends with the workflow in a terminal status; but each
call begins by writing RUNNING unconditionally, which is what resets a
terminal workflow when execution is re-invoked on the same id. -/
theorem C8_theorem :
    (∀ out : ExecOutcome,
        List.Chain' (fun a b => statusRank a ≤ statusRank b)
          (WorkflowStatus.pending :: execStatusTrace out)) ∧
    (∀ out : ExecOutcome, isTerminal ((execStatusTrace out).getLastD .pending) = true) ∧
    (∀ out : ExecOutcome, (execStatusTrace out).head? = some .running) ∧
    (∀ (run : StepDef → Results → Except String Obj) (steps : List (String × StepDef))
        (st : WFState), isTerminal (executeWorkflowState run steps st).status = true) := by
  refine ⟨?_, ?_, ?_, ?_⟩
  · intro out
    cases out <;> simp [execStatusTrace, statusRank]
  · intro out
    cases out <;> simp [execStatusTrace, isTerminal]
  · intro out
    cases out <;> simp [execStatusTrace]
  · intro run steps st
    unfold executeWorkflowState
    cases schedLoop run steps [] [] <;> simp [applyOutcome, isTerminal]

/-- Claim C2 amended: when the scheduler ends stepFailed, every result
already recorded in the results table is carried unchanged into the failure
outcome (the per-step records the failure handler leaves untouched), while
the workflow-level aggregate result field is not written on the failure
path: it keeps its previous value, and the error field carries the failing
step's error string. -/
theorem C2_theorem :
    ∀ (run : StepDef → Results → Except String Obj) (steps : List (String × StepDef))
      (executed : List String) (results : Results) (n e : String) (rs : Results),
      (∀ k, (alget results k).isSome = true → k ∈ executed) →
      schedLoop run steps executed results = .stepFailed n e rs →
      (∀ k v, alget results k = some v → alget rs k = some v) ∧
      (∀ st : WFState,
          (applyOutcome st (.stepFailed n e rs)).status = .failed ∧
          (applyOutcome st (.stepFailed n e rs)).result = st.result ∧
          (applyOutcome st (.stepFailed n e rs)).error = some e) := by
  intro run steps executed results n e rs hinv hrun
  refine ⟨?_, fun st => ⟨rfl, rfl, rfl⟩⟩
  induction executed, results using schedLoop.induct run steps with
  | case1 executed results hlen hready =>
      rw [schedLoop_unfold, if_pos hlen, hready] at hrun
      exact absurd hrun (by simp)
  | case2 executed results hlen s rest hready n2 e2 rs2 hbatch =>
      rw [schedLoop_unfold, if_pos hlen, hready] at hrun
      simp only [hbatch, ExecOutcome.stepFailed.injEq] at hrun
      intro k v hk
      rw [← hrun.2.2]
      refine processBatch_failed_extends _ _ _ _ _ _ hbatch k v hk ?_
      intro hkmem
      simp only [List.map_map] at hkmem
      have : k ∈ (s :: rest).map StepDef.name := by
        simpa using hkmem
      obtain ⟨t, ht, htk⟩ := List.mem_map.mp this
      have hready2 : t ∈ readySteps steps executed := by
        rw [hready]
        exact ht
      have := readySteps_name_not_executed steps executed t hready2
      rw [htk] at this
      have hkex := hinv k (by rw [hk]; rfl)
      exact this hkex
  | case3 executed results hlen s rest hready executed2 results2 hbatch ih =>
      rw [schedLoop_unfold, if_pos hlen, hready] at hrun
      simp only [hbatch] at hrun
      have hinv2 : ∀ k, (alget results2 k).isSome = true → k ∈ executed2 :=
        processBatch_ok_invariant _ _ _ _ _ hbatch hinv
      intro k v hk
      have hnotbatch : k ∉ (List.map (fun t => (t, run t results)) (s :: rest)).map
          (fun p => p.1.name) := by
        intro hkmem
        simp only [List.map_map] at hkmem
        have : k ∈ (s :: rest).map StepDef.name := by
          simpa using hkmem
        obtain ⟨t, ht, htk⟩ := List.mem_map.mp this
        have hready2 : t ∈ readySteps steps executed := by
          rw [hready]
          exact ht
        have := readySteps_name_not_executed steps executed t hready2
        rw [htk] at this
        have hkex := hinv k (by rw [hk]; rfl)
        exact this hkex
      have hk2 : alget results2 k = some v :=
        processBatch_ok_extends _ _ _ _ _ hbatch k v hk hnotbatch
      exact ih hinv2 hrun k v hk2
  | case4 executed results hlen =>
      rw [schedLoop_unfold, if_neg hlen] at hrun
      exact absurd hrun (by simp)

/-- Claim C2 witness: resuming the scheduler after step a completed, step b
fails, the recorded result of a is carried into the failure outcome, and the
applied outcome is FAILED with result left as it was. -/
theorem C2_witness :
    alget [("a", [("v", Value.int 1)])] "a" = some [("v", Value.int 1)] ∧
    (applyOutcome initialWFState
        (.stepFailed "b" "boom" [("a", [("v", Value.int 1)])])).status = .failed ∧
    (applyOutcome initialWFState
        (.stepFailed "b" "boom" [("a", [("v", Value.int 1)])])).result = none := by
  have hs : schedLoop runAB (buildSteps [stepA, stepB]) ["a"] [("a", [("v", Value.int 1)])] =
      .stepFailed "b" "boom" [("a", [("v", Value.int 1)])] := by
    simp [schedLoop_unfold, buildSteps, alset, readySteps, isReady, stepA, stepB,
      processBatch, addName, runAB, alget]
  have h := C2_theorem runAB (buildSteps [stepA, stepB]) ["a"] [("a", [("v", Value.int 1)])]
      "b" "boom" [("a", [("v", Value.int 1)])]
      (by
        intro k hk
        have := mem_keys_of_alget_isSome _ _ hk
        simpa using this)
      hs
  exact ⟨h.1 "a" [("v", Value.int 1)] rfl, (h.2 initialWFState).1, (h.2 initialWFState).2.1⟩

/-- Claim C2 counterexample: a workflow where step a completes with a value
and step b then fails ends FAILED, yet workflow.result is None — the
completed step's result is not available in the workflow's aggregate result
mapping, which execute_workflow assigns only on the success path; the value
survives only in the scheduler's results table and the per-step record. -/
theorem C2_counterexample :
    schedLoop runAB (buildSteps [stepA, stepB]) [] [] =
      .stepFailed "b" "boom" [("a", [("v", Value.int 1)])] ∧
    (executeWorkflowState runAB (buildSteps [stepA, stepB]) initialWFState).status = .failed ∧
    (executeWorkflowState runAB (buildSteps [stepA, stepB]) initialWFState).result = none := by
  have hs : schedLoop runAB (buildSteps [stepA, stepB]) [] [] =
      .stepFailed "b" "boom" [("a", [("v", Value.int 1)])] := by
    simp [schedLoop_unfold, buildSteps, alset, readySteps, isReady, stepA, stepB,
      processBatch, addName, runAB, alget]
  refine ⟨hs, ?_, ?_⟩ <;> simp [executeWorkflowState, hs, applyOutcome, initialWFState]

theorem retryLoop_all_fail (dispatch : Nat → Except String Obj) (errs : Nat → String)
    (hd : ∀ i, dispatch i = .error (errs i)) :
    ∀ (n attempt : Nat),
      retryLoop dispatch attempt n =
        (List.range' (attempt + 1) n, attempt + n + 1, .error (errs (attempt + n))) := by
  intro n
  induction n with
  | zero =>
      intro attempt
      simp [retryLoop, hd attempt, List.range']
  | succ m ih =>
      intro attempt
      simp only [retryLoop, hd attempt]
      rw [ih (attempt + 1)]
      have h1 : attempt + 1 + m = attempt + (m + 1) := by omega
      rw [h1]
      rfl

theorem runRetries_all_fail (dispatch : Nat → Except String Obj) (errs : Nat → String)
    (hd : ∀ i, dispatch i = .error (errs i)) (rc : Nat) :
    runRetries dispatch rc = (List.range' 1 rc, rc + 1, .error (errs rc)) := by
  unfold runRetries
  rw [retryLoop_all_fail dispatch errs hd rc 0]
  simp

theorem stepRunner_all_fail (dsp : StepDef → Obj → Nat → Except String Obj)
    (errs : Nat → String) (context : Obj) (step : StepDef) (results : Results)
    (hd : ∀ s p i, dsp s p i = .error (errs i)) :
    stepRunner dsp context step results = .error (errs step.retry_count) := by
  unfold stepRunner executeStep
  rw [runRetries_all_fail (dsp step (resolveStepParams context results step.params)) errs
    (fun i => hd step _ i) step.retry_count]

/-- Claim C3: with a dispatch that fails on every attempt, the retry policy
makes exactly retry_count + 1 attempts, sleeps 1, 2, ..., retry_count units
(one unit before the first retry, two before the second, linear), and ends
with the error of the last attempt re-raised; threaded through _execute_step
into the scheduler, a single-step workflow under an always-failing dispatch
ends FAILED carrying that step's error. -/
theorem C3_theorem :
    ∀ errs : Nat → String,
      (∀ dispatch : Nat → Except String Obj,
          (∀ i, dispatch i = .error (errs i)) →
          ∀ rc, runRetries dispatch rc = (List.range' 1 rc, rc + 1, .error (errs rc))) ∧
      (∀ (dsp : StepDef → Obj → Nat → Except String Obj) (context : Obj)
          (step : StepDef) (results : Results),
          (∀ s p i, dsp s p i = .error (errs i)) →
          stepRunner dsp context step results = .error (errs step.retry_count)) ∧
      (∀ (e : String) (step : StepDef) (st : WFState),
          step.depends_on = [] →
          (executeWorkflowState (stepRunner (fun _ _ _ => .error e) [])
              (buildSteps [step]) st).status = .failed ∧
          (executeWorkflowState (stepRunner (fun _ _ _ => .error e) [])
              (buildSteps [step]) st).error = some e) := by
  intro errs
  refine ⟨?_, ?_, ?_⟩
  · intro dispatch hd rc
    exact runRetries_all_fail dispatch errs hd rc
  · intro dsp context step results hd
    exact stepRunner_all_fail dsp errs context step results hd
  · intro e step st hdeps
    have hrun : stepRunner (fun _ _ _ => .error e) [] step [] = .error e :=
      stepRunner_all_fail (fun _ _ _ => .error e) (fun _ => e) [] step [] (fun s p i => rfl)
    have hsteps : buildSteps [step] = [(step.name, step)] := by
      simp [buildSteps, alset]
    have hready : readySteps (buildSteps [step]) [] = [step] := by
      rw [hsteps]
      simp [readySteps, isReady, hdeps]
    have hloop : schedLoop (stepRunner (fun _ _ _ => .error e) []) (buildSteps [step]) [] [] =
        .stepFailed step.name e [] := by
      rw [schedLoop_unfold, if_pos (by rw [hsteps]; simp), hready]
      simp [processBatch, hrun]
    constructor <;> simp [executeWorkflowState, hloop, applyOutcome]

/-- Claim C3 witness: a step with retry_count 2 under an always-failing
dispatch is attempted exactly 3 times with sleeps of 1 then 2 units, the
last error is re-raised, and the single-step workflow built on it ends
FAILED with that error. -/
theorem C3_witness :
    runRetries dispatchFail 2 = ([1, 2], 3, Except.error "boom") ∧
    stepRunner (fun _ _ _ => Except.error "boom") [] stepR [] = .error "boom" ∧
    (executeWorkflowState (stepRunner (fun _ _ _ => Except.error "boom") [])
        (buildSteps [stepR]) initialWFState).status = .failed ∧
    (executeWorkflowState (stepRunner (fun _ _ _ => Except.error "boom") [])
        (buildSteps [stepR]) initialWFState).error = some "boom" := by
  have h := C3_theorem (fun _ => "boom")
  refine ⟨?_, ?_, ?_, ?_⟩
  · have := h.1 dispatchFail (fun i => rfl) 2
    simpa [List.range'] using this
  · exact h.2.1 (fun _ _ _ => Except.error "boom") [] stepR [] (fun s p i => rfl)
  · exact (h.2.2 "boom" stepR initialWFState rfl).1
  · exact (h.2.2 "boom" stepR initialWFState rfl).2

theorem alget_resultsAsValues (results : Results) (k : String) :
    alget (resultsAsValues results) k = (alget results k).map Value.obj := by
  induction results with
  | nil => simp [resultsAsValues, alget]
  | cons p rest ih =>
      obtain ⟨k1, o⟩ := p
      by_cases h : k1 = k
      · subst h
        simp [resultsAsValues, alget]
      · simp only [resultsAsValues, List.map_cons, alget, if_neg h]
        simpa [resultsAsValues] using ih

theorem keys_resultsAsValues (results : Results) :
    (resultsAsValues results).map Prod.fst = results.map Prod.fst := by
  simp [resultsAsValues]

theorem resolveVal_str (results : Results) (s : String) :
    resolveVal results (.str s) = resolveStr results s := by
  simp only [resolveVal]

theorem resolveObj_map (results : Results) (kvs : List (String × Value)) :
    resolveObj results kvs = kvs.map (fun p => (p.1, resolveVal results p.2)) := by
  induction kvs with
  | nil => simp [resolveObj]
  | cons p rest ih =>
      obtain ⟨k, v⟩ := p
      simp [resolveObj, ih]

theorem resolveArr_map (results : Results) (xs : List Value) :
    resolveArr results xs = xs.map (fun v =>
      match v with
      | .obj kvs => .obj (resolveObj results kvs)
      | w => w) := by
  induction xs with
  | nil => simp [resolveArr]
  | cons v rest ih =>
      cases v <;> simp [resolveArr, ih]

/-- Claim C4 amended: the working params dict layers context, then completed
step results keyed by step name, then the step's own params, later layers
overriding key-by-key; a reference string whose step has completed resolves
to that step's result value, an unknown step name or a dot-free reference is
left literal, dict values are resolved recursively — but inside a list only
dict elements are recursed into: a string element (template references
included) and every other non-dict element of a list is left untouched. -/
theorem C4_theorem :
    (∀ (context : Obj) (results : Results) (stepParams : Obj) (k : String),
        (context.map Prod.fst).Nodup →
        (results.map Prod.fst).Nodup →
        (stepParams.map Prod.fst).Nodup →
        alget (mergeParams context results stepParams) k =
          match alget stepParams k with
          | some v => some v
          | none =>
              match alget results k with
              | some o => some (Value.obj o)
              | none => alget context k) ∧
    (∀ (results : Results) (n k : String) (stepRes : Obj) (v : Value),
        '.' ∉ n.data → alget results n = some stepRes → alget stepRes k = some v →
        resolveVal results (.str (templateRef n k)) = v) ∧
    (∀ (results : Results) (n k : String),
        '.' ∉ n.data → alget results n = none →
        resolveVal results (.str (templateRef n k)) = .str (templateRef n k)) ∧
    (∀ (results : Results) (r : String),
        '.' ∉ r.data →
        resolveVal results (.str (braceRef r)) = .str (braceRef r)) ∧
    (∀ (results : Results) (kvs : List (String × Value)),
        resolveObj results kvs = kvs.map (fun p => (p.1, resolveVal results p.2))) ∧
    (∀ (results : Results) (xs : List Value),
        resolveArr results xs = xs.map (fun v =>
          match v with
          | .obj kvs => .obj (resolveObj results kvs)
          | w => w)) ∧
    (∀ results : Results,
        resolveVal results .null = .null ∧
        (∀ b, resolveVal results (.boolean b) = .boolean b) ∧
        (∀ i, resolveVal results (.int i) = .int i)) ∧
    (∀ (context : Obj) (results : Results) (stepParams : Obj),
        resolveStepParams context results stepParams =
          resolveObj results (mergeParams context results stepParams)) := by
  refine ⟨?_, ?_, ?_, ?_, resolveObj_map, resolveArr_map, ?_, fun _ _ _ => rfl⟩
  · intro context results stepParams k hctx hres hsp
    unfold mergeParams
    rw [alget_alupdate _ stepParams k hsp]
    cases hpk : alget stepParams k with
    | some v => simp
    | none =>
        simp only []
        rw [alget_alupdate _ (resultsAsValues results) k
          (by rw [keys_resultsAsValues]; exact hres)]
        rw [alget_resultsAsValues]
        cases hrk : alget results k with
        | some o => simp
        | none =>
            simp only [Option.map_none']
            rw [alget_alupdate [] context k hctx]
            cases hck : alget context k with
            | some v => simp
            | none => simp [alget]
  · intro results n k stepRes v hn hres hkey
    rw [resolveVal_str, resolveStr_ref results n k hn]
    simp only [hres, hkey]
  · intro results n k hn hres
    rw [resolveVal_str, resolveStr_ref results n k hn]
    simp only [hres]
  · intro results r hr
    rw [resolveVal_str, resolveStr_no_dot results r hr]
  · intro results
    refine ⟨?_, ?_, ?_⟩ <;> simp [resolveVal]

/-- Claim C4 counterexample: the same completed-step reference that resolves
to 42 as a direct dict value is left as the literal string when it sits as
an element of a list — the list branch of _resolve_params only recurses
into dict elements, so resolution does not reach string elements of
sequences, contradicting the claim's recursion into each sequence element. -/
theorem C4_counterexample :
    resolveObj resultsA [("k", .arr [.str (templateRef "a" "v")])] =
      [("k", .arr [.str (templateRef "a" "v")])] ∧
    resolveVal resultsA (.str (templateRef "a" "v")) = .int 42 ∧
    Value.str (templateRef "a" "v") ≠ Value.int 42 := by
  refine ⟨?_, ?_, ?_⟩
  · simp [resolveObj, resolveVal, resolveArr]
  · simp [resolveVal, resolveStr, templateRef, braceRef, stripTemplate, splitRef,
      alget, resultsA]
  · simp

/-- Claim C4 witness: concrete layering with overrides across all three
layers, a resolved reference, an unknown-step reference kept literal and a
dot-free reference kept literal. -/
theorem C4_witness :
    alget (mergeParams [("x", Value.int 1), ("y", Value.int 9)] resultsA
        [("x", Value.int 2)]) "x" = some (Value.int 2) ∧
    alget (mergeParams [("x", Value.int 1), ("y", Value.int 9)] resultsA
        [("x", Value.int 2)]) "a" = some (Value.obj [("v", Value.int 42)]) ∧
    alget (mergeParams [("x", Value.int 1), ("y", Value.int 9)] resultsA
        [("x", Value.int 2)]) "y" = some (Value.int 9) ∧
    resolveVal resultsA (.str (templateRef "a" "v")) = Value.int 42 ∧
    resolveVal resultsA (.str (templateRef "zzz" "v")) = .str (templateRef "zzz" "v") ∧
    resolveVal resultsA (.str (braceRef "nodot")) = .str (braceRef "nodot") := by
  refine ⟨?_, ?_, ?_, ?_, ?_, ?_⟩
  · rw [C4_theorem.1 [("x", Value.int 1), ("y", Value.int 9)] resultsA [("x", Value.int 2)]
      "x" (by decide) (by decide) (by decide)]
    rfl
  · rw [C4_theorem.1 [("x", Value.int 1), ("y", Value.int 9)] resultsA [("x", Value.int 2)]
      "a" (by decide) (by decide) (by decide)]
    rfl
  · rw [C4_theorem.1 [("x", Value.int 1), ("y", Value.int 9)] resultsA [("x", Value.int 2)]
      "y" (by decide) (by decide) (by decide)]
    rfl
  · exact C4_theorem.2.1 resultsA "a" "v" [("v", Value.int 42)] (Value.int 42)
      (by decide) rfl rfl
  · exact C4_theorem.2.2.1 resultsA "zzz" "v" (by decide) rfl
  · exact C4_theorem.2.2.2.1 resultsA "nodot" (by decide)

/-- Claim C10: a reference of the exact two-part form whose step name is a
completed result but whose key is absent from that step's result dict
resolves to null (results[step_name].get(result_key) is None) — not the
literal string and not an error. -/
theorem C10_theorem :
    ∀ (results : Results) (n k : String) (stepRes : Obj),
      '.' ∉ n.data → alget results n = some stepRes → alget stepRes k = none →
      resolveVal results (.str (templateRef n k)) = .null := by
  intro results n k stepRes hn hres hkey
  rw [resolveVal_str, resolveStr_ref results n k hn]
  simp only [hres, hkey]

/-- Claim C10 witness: step a completed with only key v; referencing its
missing key resolves to null. -/
theorem C10_witness :
    resolveVal resultsA (.str (templateRef "a" "missing")) = .null :=
  C10_theorem resultsA "a" "missing" [("v", Value.int 42)] (by decide) rfl rfl

/-- Claim C5: reconstructing steps from the persisted per-step dicts yields
steps identical — as whole records and field by field — to the steps
created from the originally submitted definitions, and the rebuilt step
dict of the rehydrated workflow agrees with the original one. -/
theorem C5_theorem :
    (∀ s : StepDef, mkStep (serializeStep s) = s) ∧
    (∀ defs : List StepInput,
        ((createSteps defs).map serializeStep).map mkStep = createSteps defs) ∧
    (∀ defs : List StepInput,
        buildSteps (((createSteps defs).map serializeStep).map mkStep) =
          buildSteps (createSteps defs)) ∧
    (∀ s : StepDef,
        (mkStep (serializeStep s)).name = s.name ∧
        (mkStep (serializeStep s)).service = s.service ∧
        (mkStep (serializeStep s)).endpoint = s.endpoint ∧
        (mkStep (serializeStep s)).method = s.method ∧
        (mkStep (serializeStep s)).params = s.params ∧
        (mkStep (serializeStep s)).depends_on = s.depends_on ∧
        (mkStep (serializeStep s)).retry_count = s.retry_count ∧
        (mkStep (serializeStep s)).timeout = s.timeout) := by
  have hrt : ∀ s : StepDef, mkStep (serializeStep s) = s := fun s => rfl
  have hcomp : mkStep ∘ serializeStep = id := funext hrt
  refine ⟨hrt, ?_, ?_, ?_⟩
  · intro defs
    rw [List.map_map, hcomp, List.map_id]
  · intro defs
    rw [List.map_map, hcomp, List.map_id]
  · intro s
    exact ⟨rfl, rfl, rfl, rfl, rfl, rfl, rfl, rfl⟩

theorem buildSteps_lookup (steps : List StepDef) (m : List (String × StepDef)) (n : String) :
    alget (steps.foldl (fun acc s => alset acc s.name s) m) n =
      match lastWithName steps n with
      | some s => some s
      | none => alget m n := by
  induction steps generalizing m with
  | nil => simp [lastWithName]
  | cons s rest ih =>
      simp only [List.foldl_cons]
      rw [ih]
      simp only [lastWithName]
      cases hl : lastWithName rest n with
      | some t => simp [hl]
      | none =>
          simp only [hl]
          by_cases hs : s.name = n
          · rw [if_pos hs, hs, alget_alset_self]
          · rw [if_neg hs, alget_alset_ne m s.name n s hs]

/-- Claim C9: workflow creation performs no duplicate-name validation — step
construction and the Workflow constructor are total — and the step dict the
constructor builds keeps, for every name, exactly the last submitted step
definition with that name, silently dropping earlier duplicates. -/
theorem C9_theorem :
    (∀ (steps : List StepDef) (n : String),
        alget (buildSteps steps) n = lastWithName steps n) ∧
    (∀ (defs : List StepInput) (n : String),
        alget (buildSteps (createSteps defs)) n = lastWithName (createSteps defs) n) := by
  have main : ∀ (steps : List StepDef) (n : String),
      alget (buildSteps steps) n = lastWithName steps n := by
    intro steps n
    unfold buildSteps
    rw [buildSteps_lookup steps [] n]
    cases hl : lastWithName steps n <;> simp [alget]
  exact ⟨main, fun defs n => main (createSteps defs) n⟩

theorem routeInternal_ne_serviceNotFound (callHandler : APIRoute → Obj → Except String Obj)
    (basePath endpointPath m : String) (params : Obj) (routes : List APIRoute)
    (sv : String) :
    routeInternal callHandler basePath endpointPath m params routes ≠
      .error (.serviceNotFound sv) := by
  unfold routeInternal
  cases hf : findRoute routes (joinUrl basePath endpointPath) m with
  | none => simp
  | some r =>
      cases hc : callHandler r
          (alupdate params (extractPathParams r.path (joinUrl basePath endpointPath))) with
      | ok res => simp [hc]
      | error e => simp [hc]

theorem routeExternal_ne_serviceNotFound (http : HttpRequest → Except String HttpResponse)
    (u endpointPath m : String) (params : Obj) (timeout : Option Nat) (sv : String) :
    routeExternal http u endpointPath m params timeout ≠ .error (.serviceNotFound sv) := by
  unfold routeExternal
  cases hb : buildExternalRequest u endpointPath m params timeout with
  | none => simp
  | some req =>
      cases hh : http req with
      | error e => simp [hh]
      | ok resp =>
          simp only [hh, handleExternalResponse]
          split <;> simp

/-- Claim C6: dispatch fails with ServiceNotFound exactly when the service
name is not a key of the module table; a registered external module routes
through the HTTP path, whose request goes to the joined URL with the given
upper-cased method, params as query for GET and DELETE and as the json body
for POST and PUT, the timeout passed through; and a non-2xx upstream status
becomes an error rather than a returned result. -/
theorem C6_theorem :
    (∀ (http : HttpRequest → Except String HttpResponse)
        (callHandler : APIRoute → Obj → Except String Obj)
        (modules : List (String × ModuleRegistration))
        (service endpointPath m : String) (params : Obj) (timeout : Option Nat),
        routeRequest http callHandler modules service endpointPath m params timeout =
            .error (.serviceNotFound service) ↔
          alget modules service = none) ∧
    (∀ (http : HttpRequest → Except String HttpResponse)
        (callHandler : APIRoute → Obj → Except String Obj)
        (modules : List (String × ModuleRegistration))
        (service : String) (md : ModuleRegistration) (u endpointPath m : String)
        (params : Obj) (timeout : Option Nat),
        alget modules service = some md → md.routes = none → md.service_url = some u →
        routeRequest http callHandler modules service endpointPath m params timeout =
          routeExternal http u endpointPath m params timeout) ∧
    (∀ (u endpointPath m : String) (params : Obj) (timeout : Option Nat),
        upper m = "GET" →
        buildExternalRequest u endpointPath m params timeout =
          some { url := joinUrl u endpointPath, method := "GET",
                 query := some params, jsonBody := none, timeout := timeout }) ∧
    (∀ (u endpointPath m : String) (params : Obj) (timeout : Option Nat),
        upper m = "POST" →
        buildExternalRequest u endpointPath m params timeout =
          some { url := joinUrl u endpointPath, method := "POST",
                 query := none, jsonBody := some params, timeout := timeout }) ∧
    (∀ (u endpointPath m : String) (params : Obj) (timeout : Option Nat),
        upper m = "PUT" →
        buildExternalRequest u endpointPath m params timeout =
          some { url := joinUrl u endpointPath, method := "PUT",
                 query := none, jsonBody := some params, timeout := timeout }) ∧
    (∀ (u endpointPath m : String) (params : Obj) (timeout : Option Nat),
        upper m = "DELETE" →
        buildExternalRequest u endpointPath m params timeout =
          some { url := joinUrl u endpointPath, method := "DELETE",
                 query := some params, jsonBody := none, timeout := timeout }) ∧
    (∀ (http : HttpRequest → Except String HttpResponse)
        (u endpointPath m : String) (params : Obj) (timeout : Option Nat),
        upper m ≠ "GET" → upper m ≠ "POST" → upper m ≠ "PUT" →
        upper m ≠ "DELETE" →
        buildExternalRequest u endpointPath m params timeout = none ∧
        routeExternal http u endpointPath m params timeout =
          .error (.unsupportedMethod m)) ∧
    (∀ (u endpointPath m : String) (params : Obj) (timeout : Option Nat)
        (http : HttpRequest → Except String HttpResponse)
        (req : HttpRequest) (resp : HttpResponse),
        buildExternalRequest u endpointPath m params timeout = some req →
        http req = .ok resp → is2xx resp.status = false →
        routeExternal http u endpointPath m params timeout =
          .error (.httpStatus resp.status resp.body)) ∧
    (∀ status : Nat, is2xx status = true ↔ (200 ≤ status ∧ status < 300)) := by
  refine ⟨?_, ?_, ?_, ?_, ?_, ?_, ?_, ?_, ?_⟩
  · intro http cb modules service ep m params t
    cases halget : alget modules service with
    | none => simp [routeRequest, halget]
    | some md =>
        simp only [routeRequest, halget]
        constructor
        · intro h
          exfalso
          cases hro : md.routes with
          | some routes =>
              rw [hro] at h
              exact routeInternal_ne_serviceNotFound cb md.base_path ep m params routes
                service h
          | none =>
              rw [hro] at h
              cases hsu : md.service_url with
              | some u =>
                  rw [hsu] at h
                  exact routeExternal_ne_serviceNotFound http u ep m params t service h
              | none =>
                  rw [hsu] at h
                  simp at h
        · intro h
          exact absurd h (by simp)
  · intro http cb modules service md u ep m params t h1 h2 h3
    simp only [routeRequest, h1, h2, h3]
  · intro u ep m params t hm
    simp [buildExternalRequest, hm]
  · intro u ep m params t hm
    simp [buildExternalRequest, hm]
  · intro u ep m params t hm
    simp [buildExternalRequest, hm]
  · intro u ep m params t hm
    simp [buildExternalRequest, hm]
  · intro http u ep m params t h1 h2 h3 h4
    have hb : buildExternalRequest u ep m params t = none := by
      simp [buildExternalRequest, h1, h2, h3, h4]
    exact ⟨hb, by simp [routeExternal, hb]⟩
  · intro u ep m params t http req resp hb hh his
    simp only [routeExternal, hb, hh, handleExternalResponse, his]
    simp
  · intro status
    simp [is2xx]

/-- Claim C6 witness: an unregistered name fails with ServiceNotFound; the
registered external module dispatches through the HTTP path, building a GET
request on the joined URL carrying params as query; and a 404 upstream
answer surfaces as an error carrying status and body. -/
theorem C6_witness :
    routeRequest http404 handlerStub [] "ext" "/x" "GET" [] none =
      .error (.serviceNotFound "ext") ∧
    routeRequest http404 handlerStub mods1 "ext" "/x" "GET" [] none =
      routeExternal http404 "http://up" "/x" "GET" [] none ∧
    buildExternalRequest "http://up" "/x" "GET" [] none =
      some { url := joinUrl "http://up" "/x", method := "GET", query := some [],
             jsonBody := none, timeout := none } ∧
    routeExternal http404 "http://up" "/x" "GET" [] none =
      .error (.httpStatus 404 []) := by
  have hmods : alget mods1 "ext" = some extMod := rfl
  have hup : upper "GET" = "GET" := rfl
  have hreq : buildExternalRequest "http://up" "/x" "GET" [] none =
      some { url := joinUrl "http://up" "/x", method := "GET", query := some [],
             jsonBody := none, timeout := none } :=
    C6_theorem.2.2.1 "http://up" "/x" "GET" [] none hup
  refine ⟨?_, ?_, hreq, ?_⟩
  · exact (C6_theorem.1 http404 handlerStub [] "ext" "/x" "GET" [] none).mpr rfl
  · exact C6_theorem.2.1 http404 handlerStub mods1 "ext" extMod "http://up" "/x" "GET"
      [] none hmods rfl rfl
  · exact C6_theorem.2.2.2.2.2.2.2.1 "http://up" "/x" "GET" [] none http404 _
      { status := 404, body := [] } hreq rfl rfl

/-- Claim C7 (the code as written): _route_internal resolves handlers by
scanning router.routes with brace-stripped prefix matching and a placeholder
path-parameter extractor — the request path matches both a shorter and a
longer registered route (a multi-match the scan settles by registration
order), path parameters are always extracted as the empty dict, and a
parameterized route never matches its own instantiated paths. -/
theorem C7_theorem :
    routeMatches routeItems "/api/items/all" "GET" = true ∧
    routeMatches routeItemsAll "/api/items/all" "GET" = true ∧
    routeItems ≠ routeItemsAll ∧
    findRoute [routeItems, routeItemsAll] "/api/items/all" "GET" = some routeItems ∧
    findRoute [routeItemsAll, routeItems] "/api/items/all" "GET" = some routeItemsAll ∧
    extractPathParams "/api/items/\x7bitem_id\x7d" "/api/items/42" = [] ∧
    routeMatches routeItemsParam "/api/items/42" "GET" = false := by
  refine ⟨?_, ?_, ?_, ?_, ?_, rfl, ?_⟩ <;> decide

end PowernodeGateway
